import Mathlib

/-!
Verification of the logerrors extension (src/logerrors.c) against its
natural-language specification.

The development shallowly embeds the statistics core of logerrors.c:
the per-error-code counter entries (struct message_info), the global
state (struct global_info), the rotation step logerrors_update_info,
the log hook logerrors_emit_log_hook, the (re)initialisation routine
logerrors_init, and the SQL-facing readers pg_log_errors_stats,
pg_log_errors_reset and pg_slow_log_stats.

Modelling conventions:
  - pg_atomic_uint32 cells are modelled as Nat values kept below 2^32 by
    taking fetch-add results modulo 4294967296 (the defined wrap-around of
    unsigned 32-bit arithmetic);
  - the C `int` field sum_in_buffer is modelled as a mathematical Int
    (signed overflow has no defined C behaviour to be faithful to);
  - conversions between uint32 and int whose C behaviour is
    implementation defined for values at or above 2^31 are modelled as
    value preserving;
  - the shared hashtable is modelled as a total function from the Int
    key to the entry, together with the fact that after logerrors_init
    it contains exactly the registered error codes, so a HASH_FIND
    succeeds precisely for members of the error_codes list;
  - concurrency is not modelled: every claim treated here is about the
    sequential effect of the operations, which the specification also
    states per single operation.

The file constants.h of the repository is not under src/; the constants
it provides are modelled from the spec where needed (see `Constants`).
The array bounds 3 (message_types_count) and 360 (max_number_of_intervals)
are taken from the struct declarations in src/logerrors.c itself.
-/

/-- Number of tracked severity types; the arrays in struct message_info and
struct global_info in src/logerrors.c are declared with length 3. -/
def message_types_count : Nat := 3

/-- Capacity of each ring of interval counters; the intervals array in
struct message_info is declared with length 360. -/
def max_number_of_intervals : Nat := 360

/-- Modulus of unsigned 32-bit arithmetic, 2 to the power 32. -/
def uint32Mod : Nat := 4294967296

/-- Number of ring slots actually cleared by the MemSet call in
logerrors_init: the call passes max_number_of_intervals as a BYTE count
over an array of 4-byte pg_atomic_uint32 cells, so it clears
max_number_of_intervals / 4 = 90 slots, not all 360. -/
def memsetSlotCount : Nat := max_number_of_intervals / 4

/-- Modelled from the spec: constants.h is not under src/.  It provides the
fixed registry of error codes with their display names (including the
reserved code for unknown errors), the numeric level of each tracked
severity type (message_types_codes) and its display name
(message_type_names). -/
structure Constants where
  error_codes : List Int
  error_names : List String
  not_known_error_code : Int
  message_types_codes : Nat → Int
  message_type_names : Nat → String

/-- Well-formedness of the registry constants, as the spec describes them:
the reserved unknown code is itself registered, registered codes are
pairwise distinct, and the three severity levels have pairwise distinct
numeric codes. -/
def Constants.WF (C : Constants) : Prop :=
  C.not_known_error_code ∈ C.error_codes ∧
  C.error_codes.Nodup ∧
  [C.message_types_codes 0, C.message_types_codes 1, C.message_types_codes 2].Nodup

instance (C : Constants) : Decidable C.WF := by
  unfold Constants.WF; infer_instance

/-- Shallow embedding of struct message_info (minus the hash key, which is
the index of the entry in the table model). -/
structure MessageInfo where
  message_count : Nat → Nat
  sum_in_buffer : Nat → Int
  intervals : Nat → Nat → Nat
  name : String

/-- Shallow embedding of struct global_info. -/
structure GlobalInfo where
  interval : Nat
  intervals_count : Nat
  current_interval_index : Nat
  total_count : Nat → Nat
  slow_count : Nat
  slow_reset_time : Nat

/-- The shared statistics state: the hashtable of entries keyed by error
code, plus the global struct. -/
structure LEState where
  entries : Int → MessageInfo
  glob : GlobalInfo

/-- The fields of ErrorData that logerrors_emit_log_hook reads.  The
message pointer may be NULL, hence Option. -/
structure ErrorData where
  elevel : Int
  sqlerrcode : Int
  message : Option String

/-- One output row of pg_log_errors_stats: (time interval or NULL, type
name, message label, count). -/
structure StatsRow where
  time_interval : Option Int
  mtype : String
  message : String
  count : Int
deriving DecidableEq

/-- One output row of pg_slow_log_stats: (slow count, reset timestamp). -/
structure SlowRow where
  count : Nat
  reset_time : Nat
deriving DecidableEq

/-- The two module-level shared pointers of logerrors.c; none models a
NULL pointer (the state before shared-memory initialisation). -/
structure Shmem where
  messages_info_hashtable : Option (Int → MessageInfo)
  global_variables : Option GlobalInfo

/-- Boolean test that the first list occurs at the head of the second. -/
def charsPrefixAt : List Char → List Char → Bool
  | [], _ => true
  | _ :: _, [] => false
  | a :: as, b :: bs => a == b && charsPrefixAt as bs

/-- Boolean substring occurrence test on character lists, the model of
strstr returning non-NULL. -/
def charsContain (needle : List Char) : List Char → Bool
  | [] => charsPrefixAt needle []
  | h :: t => charsPrefixAt needle (h :: t) || charsContain needle t

/-- Model of strstr(hay, needle) != NULL. -/
def strstrB (hay needle : String) : Bool := charsContain needle.data hay.data

/-- The slow-log test of logerrors_emit_log_hook: the message pointer is
non-NULL and the text contains the literal substring "duration:". -/
def hasDurationMarker : Option String → Bool
  | none => false
  | some m => strstrB m "duration:"

/-! ### The log hook (logerrors_emit_log_hook, src/logerrors.c lines 202-235) -/

/-- One iteration of the severity-type loop of logerrors_emit_log_hook:
skip unless the event level equals message_types_codes[j]; otherwise look
up the sqlerrcode (falling back to not_known_error_code when it is not a
registered key, after the diagnostic elog) and atomically increment that
entry's message_count[j] and the global total_count[j]. -/
def hookTypeStep (C : Constants) (e : ErrorData) (st : LEState) (j : Nat) : LEState :=
  if e.elevel ≠ C.message_types_codes j then st
  else
    let key := if e.sqlerrcode ∈ C.error_codes then e.sqlerrcode else C.not_known_error_code
    let m := st.entries key
    let m2 := { m with
      message_count := Function.update m.message_count j ((m.message_count j + 1) % uint32Mod) }
    let g2 := { st.glob with
      total_count := Function.update st.glob.total_count j ((st.glob.total_count j + 1) % uint32Mod) }
    { entries := Function.update st.entries key m2, glob := g2 }

/-- logerrors_emit_log_hook, the part guarded by the initialisation check
(hashtable and global pointers non-NULL, MyProc set, no proc exit in
progress): run the severity-type loop, then increment the slow-log
counter when the message carries the "duration:" marker. -/
def logerrors_emit_log_hook (C : Constants) (e : ErrorData) (st : LEState) : LEState :=
  let st1 := (List.range message_types_count).foldl (hookTypeStep C e) st
  if hasDurationMarker e.message then
    { st1 with glob := { st1.glob with slow_count := (st1.glob.slow_count + 1) % uint32Mod } }
  else st1

/-! ### The rotation step (logerrors_update_info, src/logerrors.c lines 134-162) -/

/-- The body of the rotation loop for one entry and one severity type j:
read the current message_count, fold it into sum_in_buffer while
subtracting the interval slot about to be overwritten, overwrite that
slot with the fresh count, and zero the current counter.  The slot used
is the current interval index, read before the update. -/
def tickEntry (idx j : Nat) (m : MessageInfo) : MessageInfo :=
  let mc := m.message_count j
  { m with
    sum_in_buffer := Function.update m.sum_in_buffer j
      (m.sum_in_buffer j - (m.intervals j idx : Int) + (mc : Int)),
    intervals := Function.update m.intervals j (Function.update (m.intervals j) idx mc),
    message_count := Function.update m.message_count j 0 }

/-- Rotation applied to the hashtable entry of one error code. -/
def tickCode (idx j : Nat) (es : Int → MessageInfo) (code : Int) : Int → MessageInfo :=
  Function.update es code (tickEntry idx j (es code))

/-- logerrors_update_info: for every severity type and every registered
error code, rotate that entry; afterwards advance the shared current
interval index modulo intervals_count.  The index is unchanged during
the loops, so it is read once here. -/
def logerrors_update_info (C : Constants) (st : LEState) : LEState :=
  let idx := st.glob.current_interval_index
  let es := (List.range message_types_count).foldl
    (fun acc j => C.error_codes.foldl (tickCode idx j) acc) st.entries
  { entries := es,
    glob := { st.glob with
      current_interval_index := (idx + 1) % st.glob.intervals_count } }

/-! ### Initialisation / reset (logerrors_init, src/logerrors.c lines 110-132) -/

/-- The per-entry body of logerrors_init: for each severity type j, zero
message_count[j], set the display name, clear max_number_of_intervals
BYTES of the intervals[j] ring (only the first memsetSlotCount = 90
four-byte slots), and zero sum_in_buffer[j]. -/
def initEntry (nm : String) (m : MessageInfo) : MessageInfo :=
  (List.range message_types_count).foldl (fun e j =>
    { e with
      message_count := Function.update e.message_count j 0,
      name := nm,
      intervals := Function.update e.intervals j
        (fun i => if i < memsetSlotCount then 0 else e.intervals j i),
      sum_in_buffer := Function.update e.sum_in_buffer j 0 }) m

/-- logerrors_init: re-create every registered entry and reinitialise its
counters, zero the current interval index, zero the per-type totals, and
reinitialise the slow-log info (count 0, reset time stamped now).  The
configuration fields interval and intervals_count are not written. -/
def logerrors_init (C : Constants) (now : Nat) (st : LEState) : LEState :=
  let es := (C.error_codes.zip C.error_names).foldl
    (fun acc p => Function.update acc p.1 (initEntry p.2 (acc p.1))) st.entries
  { entries := es,
    glob := { st.glob with
      current_interval_index := 0,
      total_count := (List.range message_types_count).foldl
        (fun f j => Function.update f j 0) st.glob.total_count,
      slow_count := 0,
      slow_reset_time := now } }

/-! ### Snapshot (pg_log_errors_stats, src/logerrors.c lines 329-451) -/

/-- The previous interval index exactly as the C source computes it:
unsigned 32-bit evaluation of (current_interval_index - 1 +
intervals_count) followed by the modulo with intervals_count. -/
def prevIntervalIndex (idx N : Nat) : Nat :=
  ((idx + (uint32Mod - 1) + N) % uint32Mod) % N

/-- The TOTAL row emitted for severity type lvl: NULL time interval, the
type name, the label TOTAL and the lifetime total. -/
def totalRow (C : Constants) (st : LEState) (lvl : Nat) : StatsRow :=
  ⟨none, C.message_type_names lvl, "TOTAL", (st.glob.total_count lvl : Int)⟩

/-- The rows emitted for one error code and severity type lvl: skip when
the hashtable lookup fails (after logerrors_init the table holds exactly
the registered codes); otherwise emit the long-interval row when the
rolling sum is positive and the short-interval row when the previous
interval slot is positive. -/
def categoryRows (C : Constants) (st : LEState) (lvl : Nat) (code : Int) : List StatsRow :=
  if code ∈ C.error_codes then
    let info := st.entries code
    let short_interval : Nat := st.glob.interval / 1000
    let long_interval : Nat := short_interval * st.glob.intervals_count
    let prev := prevIntervalIndex st.glob.current_interval_index st.glob.intervals_count
    let errors_in_long_interval : Int := info.sum_in_buffer lvl
    let errors_in_short_interval : Int := (info.intervals lvl prev : Int)
    (if errors_in_long_interval > 0 then
      [⟨some (long_interval : Int), C.message_type_names lvl, info.name,
        errors_in_long_interval⟩] else []) ++
    (if errors_in_short_interval > 0 then
      [⟨some (short_interval : Int), C.message_type_names lvl, info.name,
        errors_in_short_interval⟩] else [])
  else []

/-- The tuplestore built by pg_log_errors_stats once past its guard
checks: for each severity type append the TOTAL row and then the
per-code rows, in registration order. -/
def pg_log_errors_stats_core (C : Constants) (st : LEState) : List StatsRow :=
  (List.range message_types_count).foldl
    (fun acc lvl =>
      C.error_codes.foldl (fun acc2 code => acc2 ++ categoryRows C st lvl code)
        (acc ++ [totalRow C st lvl]))
    []

/-- The ereport message used by pg_log_errors_stats and
pg_log_errors_reset when the shared structs are not ready. -/
def notLoadedMsg : String := "logerrors must be loaded via shared_preload_libraries"

/-- pg_log_errors_stats including its NULL-pointer guard: error out unless
both shared pointers are set, otherwise return the rows. -/
def pg_log_errors_stats_top (C : Constants) (sh : Shmem) : Except String (List StatsRow) :=
  match sh.messages_info_hashtable, sh.global_variables with
  | some es, some g => Except.ok (pg_log_errors_stats_core C ⟨es, g⟩)
  | _, _ => Except.error notLoadedMsg

/-- pg_log_errors_reset including its NULL-pointer guard: error out unless
both shared pointers are set, otherwise run logerrors_init on the shared
state. -/
def pg_log_errors_reset_top (C : Constants) (now : Nat) (sh : Shmem) : Except String Shmem :=
  match sh.messages_info_hashtable, sh.global_variables with
  | some es, some g =>
      let st := logerrors_init C now ⟨es, g⟩
      Except.ok ⟨some st.entries, some st.glob⟩
  | _, _ => Except.error notLoadedMsg

/-- pg_slow_log_stats: when the global pointer is NULL it returns no rows
without raising; otherwise it returns the single (count, reset time)
row.  Note it checks only global_variables, not the hashtable. -/
def pg_slow_log_stats_top (sh : Shmem) : List SlowRow :=
  match sh.global_variables with
  | none => []
  | some g => [⟨g.slow_count, g.slow_reset_time⟩]

/-! ### Traces -/

/-- The zero-initialised shared state with the configured bucket duration
and ring length: every counter, slot, sum, total and timestamp is zero
and the current index is zero. -/
def zeroState (intv N : Nat) : LEState :=
  { entries := fun _ => ⟨fun _ => 0, fun _ => 0, fun _ _ => 0, ""⟩,
    glob := ⟨intv, N, 0, fun _ => 0, 0, 0⟩ }

/-- The state right after startup: the zero-initialised region followed by
the logerrors_init pass that pgss_shmem_startup runs. -/
def startupState (C : Constants) (intv N now : Nat) : LEState :=
  logerrors_init C now (zeroState intv N)

/-- The operations that may occur between resets: a log event entering the
hook, or one rotation tick of the background worker. -/
inductive NonResetOp where
  | hook (e : ErrorData)
  | tick

/-- Apply one operation. -/
def applyOp (C : Constants) (st : LEState) : NonResetOp → LEState
  | NonResetOp.hook e => logerrors_emit_log_hook C e st
  | NonResetOp.tick => logerrors_update_info C st

/-- Run a list of operations from a starting state. -/
def runOps (C : Constants) (ops : List NonResetOp) (st : LEState) : LEState :=
  ops.foldl (applyOp C) st

/-- The rolling sum the ring actually stores: the sum of the first N
interval slots of severity type j, as an integer. -/
def ringSum (m : MessageInfo) (j N : Nat) : Int :=
  ∑ i ∈ Finset.range N, ((m.intervals j i : Nat) : Int)

/-! ### Concrete instantiations used by the scenario claims -/

/-- Modelled from the spec: a small concrete registry for the scenario
claims, with one ordinary classification code X (42) named "X" and the
reserved unknown code 0 named "unknown"; severity levels WARNING, ERROR,
FATAL with the distinct numeric codes 19, 21, 22. -/
def testConstants : Constants :=
  { error_codes := [42, 0],
    error_names := ["X", "unknown"],
    not_known_error_code := 0,
    message_types_codes := fun j => if j = 0 then 19 else if j = 1 then 21 else 22,
    message_type_names := fun j => if j = 0 then "WARNING" else if j = 1 then "ERROR" else "FATAL" }

/-- A log event of severity ERROR with classification code X. -/
def eX : ErrorData := ⟨21, 42, none⟩

/-- Scenario A: from startup with bucket duration 1000 ms and ring length
3, record ERROR/X twice, then tick once. -/
def scenarioA : LEState :=
  runOps testConstants [NonResetOp.hook eX, NonResetOp.hook eX, NonResetOp.tick]
    (startupState testConstants 1000 3 0)

/-! ### Helper lemmas -/

/-- Overwriting one slot inside the summation range changes the sum by
the new value minus the overwritten one. -/
theorem ringSum_update (f : Nat → Nat) (idx N v : Nat) (h : idx < N) :
    (∑ i ∈ Finset.range N, ((Function.update f idx v i : Nat) : Int))
      = (∑ i ∈ Finset.range N, ((f i : Nat) : Int)) - ((f idx : Nat) : Int) + (v : Int) := by
  have hcast : ∀ i, ((Function.update f idx v i : Nat) : Int)
      = Function.update (fun k => ((f k : Nat) : Int)) idx ((v : Nat) : Int) i := by
    intro i
    by_cases hi : i = idx
    · subst hi; simp
    · simp [Function.update_noteq hi]
  rw [Finset.sum_congr rfl (fun i _ => hcast i)]
  rw [Finset.sum_update_of_mem (Finset.mem_range.mpr h)]
  rw [← Finset.erase_eq]
  rw [Finset.sum_erase_eq_sub (Finset.mem_range.mpr h)]
  ring

/-- The rolling-sum invariant for a single entry: for every severity type
the maintained sum_in_buffer equals the sum of the first N ring slots. -/
def EntryInv (N : Nat) (m : MessageInfo) : Prop :=
  ∀ j, m.sum_in_buffer j = ringSum m j N

/-- The reachable-state invariant: the configured ring length is N, the
current interval index lies inside the ring, and every entry satisfies
the rolling-sum equation. -/
def StateInv (N : Nat) (st : LEState) : Prop :=
  st.glob.intervals_count = N ∧ st.glob.current_interval_index < N ∧
    ∀ c, EntryInv N (st.entries c)

/-- A foldl preserves any property preserved by each step. -/
theorem foldl_preserve {σ α : Type} (P : σ → Prop) (f : σ → α → σ) :
    ∀ (l : List α) (s : σ), (∀ s a, P s → P (f s a)) → P s → P (l.foldl f s)
  | [], _, _, hs => hs
  | a :: l, s, hstep, hs => foldl_preserve P f l (f s a) hstep (hstep s a hs)

/-- One rotation of one entry at a slot inside the ring preserves the
rolling-sum equation: the sum changes by exactly the folded-in fresh
value minus the evicted slot value. -/
theorem tickEntry_inv {N : Nat} {m : MessageInfo} (idx j0 : Nat) (h : idx < N)
    (hm : EntryInv N m) : EntryInv N (tickEntry idx j0 m) := by
  intro j
  by_cases hj : j = j0
  · subst hj
    show Function.update m.sum_in_buffer j _ j
        = ∑ i ∈ Finset.range N,
            ((Function.update m.intervals j
              (Function.update (m.intervals j) idx (m.message_count j)) j i : Nat) : Int)
    rw [Function.update_same]
    rw [Finset.sum_congr rfl (fun i _ => by rw [Function.update_same])]
    rw [ringSum_update _ _ _ _ h]
    rw [hm j]
    rfl
  · show Function.update m.sum_in_buffer j0 _ j
        = ∑ i ∈ Finset.range N, ((Function.update m.intervals j0 _ j i : Nat) : Int)
    rw [Function.update_noteq hj]
    rw [Finset.sum_congr rfl (fun i _ => by rw [Function.update_noteq hj])]
    exact hm j

/-- Rotating the entry of one code preserves the invariant of all
entries. -/
theorem tickCode_inv {N idx j0 : Nat} (h : idx < N) {es : Int → MessageInfo}
    (hes : ∀ c, EntryInv N (es c)) (code : Int) :
    ∀ c, EntryInv N (tickCode idx j0 es code c) := by
  intro c
  by_cases hc : c = code
  · subst hc
    show EntryInv N (Function.update es c (tickEntry idx j0 (es c)) c)
    rw [Function.update_same]
    exact tickEntry_inv idx j0 h (hes c)
  · show EntryInv N (Function.update es code (tickEntry idx j0 (es code)) c)
    rw [Function.update_noteq hc]
    exact hes c

/-- An event entering the hook leaves sums and ring slots untouched, so
it preserves the per-entry invariant everywhere. -/
theorem hookTypeStep_inv {N : Nat} (C : Constants) (e : ErrorData) {st : LEState}
    (hst : StateInv N st) (j : Nat) : StateInv N (hookTypeStep C e st j) := by
  unfold hookTypeStep
  by_cases hlvl : e.elevel ≠ C.message_types_codes j
  · simpa [hlvl] using hst
  · simp only [hlvl, if_false]
    obtain ⟨h1, h2, h3⟩ := hst
    refine ⟨h1, h2, ?_⟩
    intro c
    by_cases hc : c = (if e.sqlerrcode ∈ C.error_codes then e.sqlerrcode
        else C.not_known_error_code)
    · rw [show c = _ from hc]
      simp only [Function.update_same]
      intro j2
      exact h3 _ j2
    · simp only [Function.update_noteq hc]
      exact h3 c

/-- The hook preserves the reachable-state invariant. -/
theorem hook_inv {N : Nat} (C : Constants) (e : ErrorData) {st : LEState}
    (hst : StateInv N st) : StateInv N (logerrors_emit_log_hook C e st) := by
  unfold logerrors_emit_log_hook
  have hfold : StateInv N ((List.range message_types_count).foldl (hookTypeStep C e) st) :=
    foldl_preserve _ _ _ _ (fun s a hs => hookTypeStep_inv C e hs a) hst
  by_cases hdur : hasDurationMarker e.message
  · simp only [hdur, if_true]
    exact ⟨hfold.1, hfold.2.1, hfold.2.2⟩
  · simpa [hdur] using hfold

/-- The rotation step preserves the reachable-state invariant. -/
theorem tick_inv {N : Nat} (hN : 0 < N) (C : Constants) {st : LEState}
    (hst : StateInv N st) : StateInv N (logerrors_update_info C st) := by
  obtain ⟨h1, h2, h3⟩ := hst
  refine ⟨h1, ?_, ?_⟩
  · show (st.glob.current_interval_index + 1) % st.glob.intervals_count < N
    rw [h1]
    exact Nat.mod_lt _ hN
  · show ∀ c, EntryInv N
      (((List.range message_types_count).foldl
        (fun acc j => C.error_codes.foldl (tickCode st.glob.current_interval_index j) acc)
        st.entries) c)
    refine foldl_preserve (fun (es : Int → MessageInfo) => ∀ c, EntryInv N (es c)) _ _ _ ?_ h3
    intro es j hes
    exact foldl_preserve (fun (es2 : Int → MessageInfo) => ∀ c, EntryInv N (es2 c)) _ _ _
      (fun es2 code hes2 => tickCode_inv h2 hes2 code) hes

/-- Any operation without a reset preserves the reachable-state
invariant. -/
theorem applyOp_inv {N : Nat} (hN : 0 < N) (C : Constants) {st : LEState}
    (hst : StateInv N st) (op : NonResetOp) : StateInv N (applyOp C st op) := by
  cases op with
  | hook e => exact hook_inv C e hst
  | tick => exact tick_inv hN C hst

/-- The zero-initialised state satisfies the invariant. -/
theorem zeroState_inv {N : Nat} (hN : 0 < N) (intv : Nat) : StateInv N (zeroState intv N) := by
  refine ⟨rfl, hN, ?_⟩
  intro c j
  show (0 : Int) = ringSum _ j N
  unfold ringSum
  simp [zeroState]

/-! ### Claim C1 -/

/-- C1: for every sequence of hook events and tick calls
(logerrors_update_info) starting from the zero-initialised state, with no
reset in between, and for every error code and severity type, the
maintained rolling sum sum_in_buffer equals the sum of the ring slots
intervals[0..N-1], where N is the configured intervals_count. -/
theorem rolling_sum_invariant (C : Constants) (intv N : Nat) (hN : 0 < N)
    (ops : List NonResetOp) (c : Int) (j : Nat) :
    ((runOps C ops (zeroState intv N)).entries c).sum_in_buffer j
      = ringSum ((runOps C ops (zeroState intv N)).entries c) j N := by
  have hinv : StateInv N (runOps C ops (zeroState intv N)) :=
    foldl_preserve (StateInv N) (applyOp C) ops (zeroState intv N)
      (fun s op hs => applyOp_inv hN C hs op) (zeroState_inv hN intv)
  exact hinv.2.2 c j

/-- Concrete instance of the rolling-sum invariant: two ERROR events on
code X followed by one rotation, with ring length 3. -/
theorem rolling_sum_invariant_witness :
    0 < 3 ∧
    ((runOps testConstants [NonResetOp.hook eX, NonResetOp.hook eX, NonResetOp.tick]
        (zeroState 1000 3)).entries 42).sum_in_buffer 1
      = ringSum ((runOps testConstants
        [NonResetOp.hook eX, NonResetOp.hook eX, NonResetOp.tick]
        (zeroState 1000 3)).entries 42) 1 3 :=
  ⟨by decide,
   rolling_sum_invariant testConstants 1000 3 (by decide)
     [NonResetOp.hook eX, NonResetOp.hook eX, NonResetOp.tick] 42 1⟩

/-! ### Claim C4 -/

/-- A code outside the fold list keeps its entry during the per-type
rotation loop. -/
theorem foldCodes_apply_not_mem (idx j : Nat) :
    ∀ (codes : List Int) (es : Int → MessageInfo) (c : Int), c ∉ codes →
      (codes.foldl (tickCode idx j) es) c = es c
  | [], _, _, _ => rfl
  | k :: codes, es, c, hc => by
      have hck : c ≠ k := fun h => hc (h ▸ List.mem_cons_self k codes)
      have hrest : c ∉ codes := fun h => hc (List.mem_cons_of_mem k h)
      show (codes.foldl (tickCode idx j) (tickCode idx j es k)) c = es c
      rw [foldCodes_apply_not_mem idx j codes _ c hrest]
      exact Function.update_noteq hck _ _

/-- With a duplicate-free code list, the per-type rotation loop applies
exactly one rotation to each registered entry. -/
theorem foldCodes_apply_mem (idx j : Nat) :
    ∀ (codes : List Int) (es : Int → MessageInfo) (c : Int), codes.Nodup → c ∈ codes →
      (codes.foldl (tickCode idx j) es) c = tickEntry idx j (es c)
  | [], _, c, _, hc => absurd hc (List.not_mem_nil c)
  | k :: codes, es, c, hnd, hc => by
      have hk : k ∉ codes := (List.nodup_cons.mp hnd).1
      have hnd2 : codes.Nodup := (List.nodup_cons.mp hnd).2
      show (codes.foldl (tickCode idx j) (tickCode idx j es k)) c = tickEntry idx j (es c)
      by_cases hck : c = k
      · subst hck
        rw [foldCodes_apply_not_mem idx j codes _ c hk]
        exact Function.update_same _ _ _
      · have hmem : c ∈ codes := by
          rcases List.mem_cons.mp hc with h | h
          · exact absurd h hck
          · exact h
        rw [foldCodes_apply_mem idx j codes _ c hnd2 hmem]
        rw [show tickCode idx j es k c = es c from Function.update_noteq hck _ _]

/-- The rotation step rewrites each registered entry by three per-type
rotations (severity types 0, 1, 2), all reading the same pre-step
current interval index. -/
theorem tick_entries_apply (C : Constants) (hnd : C.error_codes.Nodup) (st : LEState)
    (c : Int) (hc : c ∈ C.error_codes) :
    (logerrors_update_info C st).entries c
      = tickEntry st.glob.current_interval_index 2
          (tickEntry st.glob.current_interval_index 1
            (tickEntry st.glob.current_interval_index 0 (st.entries c))) := by
  show ((List.range message_types_count).foldl
      (fun acc j => C.error_codes.foldl (tickCode st.glob.current_interval_index j) acc)
      st.entries) c = _
  rw [show List.range message_types_count = [0, 1, 2] from rfl]
  show (C.error_codes.foldl (tickCode st.glob.current_interval_index 2)
        (C.error_codes.foldl (tickCode st.glob.current_interval_index 1)
          (C.error_codes.foldl (tickCode st.glob.current_interval_index 0) st.entries))) c = _
  rw [foldCodes_apply_mem _ 2 _ _ c hnd hc]
  rw [foldCodes_apply_mem _ 1 _ _ c hnd hc]
  rw [foldCodes_apply_mem _ 0 _ _ c hnd hc]

/-- C4: each tick performs, for every registered code and severity type,
rollingSum := rollingSum + currentBucket - history[currentIndex], then
history[currentIndex] := currentBucket, then currentBucket := 0, all
pairs reading the same pre-tick currentIndex; only afterwards is
currentIndex set to (currentIndex + 1) mod ringLength, which therefore
stays inside [0, ringLength). -/
theorem tick_effect (C : Constants) (hwf : C.WF) (st : LEState)
    (hN : 0 < st.glob.intervals_count) (c : Int) (hc : c ∈ C.error_codes)
    (j : Nat) (hj : j < message_types_count) :
    (((logerrors_update_info C st).entries c).sum_in_buffer j
        = (st.entries c).sum_in_buffer j
          + ((st.entries c).message_count j : Int)
          - ((st.entries c).intervals j st.glob.current_interval_index : Int))
    ∧ (((logerrors_update_info C st).entries c).intervals j st.glob.current_interval_index
        = (st.entries c).message_count j)
    ∧ (((logerrors_update_info C st).entries c).message_count j = 0)
    ∧ ((logerrors_update_info C st).glob.current_interval_index
        = (st.glob.current_interval_index + 1) % st.glob.intervals_count)
    ∧ ((logerrors_update_info C st).glob.current_interval_index
        < st.glob.intervals_count) := by
  have happly := tick_entries_apply C hwf.2.1 st c hc
  have hidx : (logerrors_update_info C st).glob.current_interval_index
      = (st.glob.current_interval_index + 1) % st.glob.intervals_count := rfl
  have hlt : (logerrors_update_info C st).glob.current_interval_index
      < st.glob.intervals_count := by
    rw [hidx]; exact Nat.mod_lt _ hN
  have hj3 : j = 0 ∨ j = 1 ∨ j = 2 := by
    have : j < 3 := hj
    omega
  rcases hj3 with hj0 | hj0 | hj0 <;> subst hj0 <;>
    exact ⟨by rw [happly]; simp [tickEntry, Function.update]; omega,
           by rw [happly]; simp [tickEntry, Function.update],
           by rw [happly]; simp [tickEntry, Function.update],
           hidx, hlt⟩

/-- Concrete instance of the tick effect at the scenario A state. -/
theorem tick_effect_witness :
    Constants.WF testConstants ∧ 0 < scenarioA.glob.intervals_count
      ∧ (42 : Int) ∈ testConstants.error_codes ∧ 1 < message_types_count
      ∧ ((logerrors_update_info testConstants scenarioA).entries 42).message_count 1 = 0
      ∧ (logerrors_update_info testConstants scenarioA).glob.current_interval_index
          < scenarioA.glob.intervals_count :=
  ⟨by decide, by decide, by decide, by decide,
   (tick_effect testConstants (by decide) scenarioA (by decide) 42
     (by decide) 1 (by decide)).2.2.1,
   (tick_effect testConstants (by decide) scenarioA (by decide) 42
     (by decide) 1 (by decide)).2.2.2.2⟩

/-! ### Claims C3 and C7 (scenarios) -/

/-- Scenario B exactly as the claim words it: scenario A followed by two
more ticks with no new records. -/
def scenarioBClaim : LEState :=
  runOps testConstants [NonResetOp.tick, NonResetOp.tick] scenarioA

/-- Scenario A followed by three more ticks: the fourth tick overall is
the one that overwrites ring slot 0 and so evicts the original bucket. -/
def scenarioBFixed : LEState :=
  runOps testConstants [NonResetOp.tick, NonResetOp.tick, NonResetOp.tick] scenarioA

/-- Counterexample to C3: after scenario A plus two more ticks the third
tick has overwritten ring slot 2, not slot 0 where the value 2 sits, so
the rolling sum for X is still 2 (not 0) and the long-window row for X
is still emitted by the snapshot. -/
theorem scenarioB_two_ticks_keep_value :
    (scenarioBClaim.entries 42).sum_in_buffer 1 = 2
    ∧ (⟨some 3, "ERROR", "X", 2⟩ : StatsRow)
        ∈ pg_log_errors_stats_core testConstants scenarioBClaim := by
  constructor
  · decide
  · decide

/-- Amended C3: three more ticks are needed; the fourth tick overall
overwrites slot 0 and evicts the original value 2, the rolling sum for X
drops to 0, and the snapshot emits only the three TOTAL rows, hence
neither a long-window nor a short-window row for X. -/
theorem scenarioB_three_ticks_evict :
    (scenarioBFixed.entries 42).sum_in_buffer 1 = 0
    ∧ pg_log_errors_stats_core testConstants scenarioBFixed
        = [⟨none, "WARNING", "TOTAL", 0⟩, ⟨none, "ERROR", "TOTAL", 2⟩,
           ⟨none, "FATAL", "TOTAL", 0⟩] := by
  constructor
  · decide
  · decide

/-- C7: with bucket duration 1000 ms and ring length 3, after two
record(ERROR, X) calls and one tick, the snapshot contains the
short-window row (1 s, ERROR, X, 2), the long-window row (3 s, ERROR, X,
2) and the TOTAL row for ERROR with count 2; the short count is read
from the ring at index (currentIndex - 1 + ringLength) mod ringLength,
which here is slot 0 holding the value 2. -/
theorem scenarioA_snapshot :
    (⟨some 1, "ERROR", "X", 2⟩ : StatsRow)
        ∈ pg_log_errors_stats_core testConstants scenarioA
    ∧ (⟨some 3, "ERROR", "X", 2⟩ : StatsRow)
        ∈ pg_log_errors_stats_core testConstants scenarioA
    ∧ (⟨none, "ERROR", "TOTAL", 2⟩ : StatsRow)
        ∈ pg_log_errors_stats_core testConstants scenarioA
    ∧ prevIntervalIndex scenarioA.glob.current_interval_index
        scenarioA.glob.intervals_count = 0
    ∧ (scenarioA.entries 42).intervals 1 0 = 2 := by
  refine ⟨by decide, by decide, by decide, by decide, by decide⟩

/-! ### Claim C9 -/

/-- C9: pg_log_errors_reset runs only logerrors_init on the shared state;
the result has current_interval_index 0, while the configured interval
and intervals_count are left exactly as they were, because
logerrors_init never writes those two fields (global_variables_init,
which does, is not called by the reset path). -/
theorem reset_preserves_config (C : Constants) (now : Nat)
    (es : Int → MessageInfo) (g : GlobalInfo) :
    pg_log_errors_reset_top C now ⟨some es, some g⟩
      = Except.ok ⟨some (logerrors_init C now ⟨es, g⟩).entries,
                   some (logerrors_init C now ⟨es, g⟩).glob⟩
    ∧ (logerrors_init C now ⟨es, g⟩).glob.interval = g.interval
    ∧ (logerrors_init C now ⟨es, g⟩).glob.intervals_count = g.intervals_count
    ∧ (logerrors_init C now ⟨es, g⟩).glob.current_interval_index = 0 :=
  ⟨rfl, rfl, rfl, rfl⟩

/-! ### Claim C5 -/

/-- C5: before the shared region is initialised both module pointers are
NULL; in that state pg_log_errors_stats and pg_log_errors_reset raise
the not-loaded error (returning no rows and leaving every state
untouched), while pg_slow_log_stats returns no rows without failing. -/
theorem not_initialized_behavior (C : Constants) (now : Nat) (sh : Shmem)
    (h1 : sh.messages_info_hashtable = none) (h2 : sh.global_variables = none) :
    pg_log_errors_stats_top C sh = Except.error notLoadedMsg
    ∧ pg_log_errors_reset_top C now sh = Except.error notLoadedMsg
    ∧ pg_slow_log_stats_top sh = [] := by
  cases sh with
  | mk ht gv =>
    simp only at h1 h2
    subst h1; subst h2
    exact ⟨rfl, rfl, rfl⟩

/-- Concrete instance of the uninitialised-state behaviour. -/
theorem not_initialized_behavior_witness :
    (Shmem.mk none none).messages_info_hashtable = none
    ∧ (Shmem.mk none none).global_variables = none
    ∧ pg_log_errors_stats_top testConstants (Shmem.mk none none) = Except.error notLoadedMsg
    ∧ pg_log_errors_reset_top testConstants 0 (Shmem.mk none none) = Except.error notLoadedMsg
    ∧ pg_slow_log_stats_top (Shmem.mk none none) = [] :=
  ⟨rfl, rfl, (not_initialized_behavior testConstants 0 _ rfl rfl).1,
   (not_initialized_behavior testConstants 0 _ rfl rfl).2.1,
   (not_initialized_behavior testConstants 0 _ rfl rfl).2.2⟩

/-! ### Claim C2 (reset does not clear the whole ring) -/

/-- Modelled from the spec: a minimal registry holding just the reserved
unknown code, used with the default configuration (interval 5000 ms,
intervals_count 120) to exercise ring slots at index 90 and above. -/
def bugConstants : Constants :=
  { error_codes := [0],
    error_names := ["unknown"],
    not_known_error_code := 0,
    message_types_codes := fun j => if j = 0 then 19 else if j = 1 then 21 else 22,
    message_type_names := fun j => if j = 0 then "WARNING" else if j = 1 then "ERROR" else "FATAL" }

/-- An ERROR event carrying the reserved unknown code. -/
def eU : ErrorData := ⟨21, 0, none⟩

/-- A reachable state with intervals_count 120 in which ring slot 119
holds the value 2: 119 empty ticks, two ERROR events, one more tick. -/
def bugTrace : LEState :=
  runOps bugConstants
    (List.replicate 119 NonResetOp.tick ++ [NonResetOp.hook eU, NonResetOp.hook eU, NonResetOp.tick])
    (startupState bugConstants 5000 120 0)

/-- The bug-trace state right after pg_log_errors_reset runs
logerrors_init on it. -/
def bugAfterReset : LEState := logerrors_init bugConstants 777 bugTrace

set_option maxRecDepth 40000 in
/-- The MemSet in logerrors_init passes max_number_of_intervals as a byte
count, so a reset clears only the first 90 four-byte ring slots: with
the default intervals_count of 120, slot 119 keeps its old value 2 while
the rolling sum is zeroed, and the very next snapshot still emits a
short-window category row with count 2 even though the state was just
reset. -/
theorem reset_leaves_stale_ring_slot :
    (bugAfterReset.entries 0).intervals 1 119 = 2
    ∧ (bugAfterReset.entries 0).sum_in_buffer 1 = 0
    ∧ (⟨some 5, "ERROR", "unknown", 2⟩ : StatsRow)
        ∈ pg_log_errors_stats_core bugConstants bugAfterReset := by
  refine ⟨by decide, by decide, by decide⟩

/-! ### Claims C8 and C10 (the log hook) -/

/-- A severity type whose level code differs from the event level is
skipped by the hook loop. -/
theorem hookTypeStep_skip (C : Constants) (e : ErrorData) (st : LEState) (j : Nat)
    (h : e.elevel ≠ C.message_types_codes j) : hookTypeStep C e st j = st := by
  unfold hookTypeStep
  rw [if_pos h]

/-- No iteration of the hook loop touches the slow-log counter. -/
theorem hookTypeStep_slow (C : Constants) (e : ErrorData) (st : LEState) (j : Nat) :
    (hookTypeStep C e st j).glob.slow_count = st.glob.slow_count := by
  unfold hookTypeStep
  by_cases h : e.elevel ≠ C.message_types_codes j
  · rw [if_pos h]
  · rw [if_neg h]

/-- The whole hook loop leaves the slow-log counter unchanged. -/
theorem foldl_hook_slow (C : Constants) (e : ErrorData) :
    ∀ (l : List Nat) (st : LEState),
      ((l.foldl (hookTypeStep C e) st).glob.slow_count = st.glob.slow_count)
  | [], _ => rfl
  | j :: l, st => by
      show ((l.foldl (hookTypeStep C e) (hookTypeStep C e st j)).glob.slow_count = _)
      rw [foldl_hook_slow C e l (hookTypeStep C e st j)]
      exact hookTypeStep_slow C e st j

/-- The hook changes entries and totals only through the one loop
iteration whose severity code matches the event level; with pairwise
distinct level codes the whole loop reduces to that single step. -/
theorem fold_hookTypeStep (C : Constants) (e : ErrorData) (st : LEState) (j : Nat)
    (hj : j < message_types_count) (hlvl : e.elevel = C.message_types_codes j)
    (hnd : [C.message_types_codes 0, C.message_types_codes 1,
            C.message_types_codes 2].Nodup) :
    (List.range message_types_count).foldl (hookTypeStep C e) st = hookTypeStep C e st j := by
  have h01 : C.message_types_codes 0 ≠ C.message_types_codes 1 := by
    simp [List.nodup_cons] at hnd; tauto
  have h02 : C.message_types_codes 0 ≠ C.message_types_codes 2 := by
    simp [List.nodup_cons] at hnd; tauto
  have h12 : C.message_types_codes 1 ≠ C.message_types_codes 2 := by
    simp [List.nodup_cons] at hnd; tauto
  rw [show List.range message_types_count = [0, 1, 2] from rfl]
  show hookTypeStep C e (hookTypeStep C e (hookTypeStep C e st 0) 1) 2 = _
  have hj3 : j = 0 ∨ j = 1 ∨ j = 2 := by
    have : j < 3 := hj
    omega
  rcases hj3 with h | h | h <;> subst h
  · rw [hookTypeStep_skip C e (hookTypeStep C e st 0) 1 (by rw [hlvl]; exact h01)]
    rw [hookTypeStep_skip C e (hookTypeStep C e st 0) 2 (by rw [hlvl]; exact h02)]
  · rw [hookTypeStep_skip C e st 0 (by rw [hlvl]; exact h01.symm)]
    rw [hookTypeStep_skip C e (hookTypeStep C e st 1) 2 (by rw [hlvl]; exact h12)]
  · rw [hookTypeStep_skip C e st 0 (by rw [hlvl]; exact h02.symm)]
    rw [hookTypeStep_skip C e st 1 (by rw [hlvl]; exact h12.symm)]

/-- The slow-log branch after the loop never touches entries or
totals. -/
theorem hook_proj (C : Constants) (e : ErrorData) (st : LEState) :
    (logerrors_emit_log_hook C e st).entries
        = ((List.range message_types_count).foldl (hookTypeStep C e) st).entries
    ∧ (logerrors_emit_log_hook C e st).glob.total_count
        = ((List.range message_types_count).foldl (hookTypeStep C e) st).glob.total_count := by
  unfold logerrors_emit_log_hook
  by_cases h : hasDurationMarker e.message <;> simp [h]

/-- C8: a hook event whose level matches severity type j increments, by
one (modulo the uint32 wrap), the message_count[j] of the entry its
classification code resolves to, which is the entry of the code itself
when registered and the reserved unknown entry otherwise, and also
total_count[j]; the hook is a total function, so no error is ever
raised to the caller (the unknown case only emits a LOG diagnostic). -/
theorem hook_increments (C : Constants) (hwf : C.WF) (st : LEState) (e : ErrorData)
    (j : Nat) (hj : j < message_types_count) (hlvl : e.elevel = C.message_types_codes j) :
    ((logerrors_emit_log_hook C e st).entries
        (if e.sqlerrcode ∈ C.error_codes then e.sqlerrcode
         else C.not_known_error_code)).message_count j
      = (((st.entries (if e.sqlerrcode ∈ C.error_codes then e.sqlerrcode
          else C.not_known_error_code)).message_count j) + 1) % uint32Mod
    ∧ (logerrors_emit_log_hook C e st).glob.total_count j
      = (st.glob.total_count j + 1) % uint32Mod := by
  have hfold := fold_hookTypeStep C e st j hj hlvl hwf.2.2
  have hproj := hook_proj C e st
  constructor
  · rw [hproj.1, hfold]
    unfold hookTypeStep
    rw [if_neg (fun h => h hlvl)]
    simp [Function.update_same]
  · rw [hproj.2, hfold]
    unfold hookTypeStep
    rw [if_neg (fun h => h hlvl)]
    simp [Function.update_same]

/-- Concrete instance of the hook increments: an ERROR event with the
unregistered code 9999 falls back to the reserved unknown entry. -/
theorem hook_increments_witness :
    Constants.WF testConstants ∧ 1 < message_types_count
    ∧ (⟨21, 9999, none⟩ : ErrorData).elevel = testConstants.message_types_codes 1
    ∧ ((logerrors_emit_log_hook testConstants ⟨21, 9999, none⟩
          (startupState testConstants 1000 3 0)).entries
        (if (9999 : Int) ∈ testConstants.error_codes then 9999
         else testConstants.not_known_error_code)).message_count 1
      = ((((startupState testConstants 1000 3 0).entries
          (if (9999 : Int) ∈ testConstants.error_codes then 9999
           else testConstants.not_known_error_code)).message_count 1) + 1) % uint32Mod :=
  ⟨by decide, by decide, by decide,
   (hook_increments testConstants (by decide) (startupState testConstants 1000 3 0)
     ⟨21, 9999, none⟩ 1 (by decide) (by decide)).1⟩

/-- C10: the hook increments the slow-log counter by exactly one (modulo
the uint32 wrap) precisely when the event message text contains the
substring "duration:", a test independent of the event level; and an
event whose level matches no tracked severity code leaves every entry
and every total counter unchanged while the slow-log counter still
follows the same rule. -/
theorem hook_slow_duration (C : Constants) (st : LEState) (e : ErrorData) :
    ((logerrors_emit_log_hook C e st).glob.slow_count
      = if hasDurationMarker e.message then (st.glob.slow_count + 1) % uint32Mod
        else st.glob.slow_count)
    ∧ ((∀ j, j < message_types_count → e.elevel ≠ C.message_types_codes j) →
        (logerrors_emit_log_hook C e st).entries = st.entries
        ∧ (logerrors_emit_log_hook C e st).glob.total_count = st.glob.total_count) := by
  constructor
  · unfold logerrors_emit_log_hook
    by_cases h : hasDurationMarker e.message
    · simp only [h, if_true]
      rw [foldl_hook_slow C e (List.range message_types_count) st]
    · simp [h, foldl_hook_slow C e (List.range message_types_count) st]
  · intro hall
    have hfold : (List.range message_types_count).foldl (hookTypeStep C e) st = st := by
      rw [show List.range message_types_count = [0, 1, 2] from rfl]
      show hookTypeStep C e (hookTypeStep C e (hookTypeStep C e st 0) 1) 2 = st
      rw [hookTypeStep_skip C e st 0 (hall 0 (by decide)),
          hookTypeStep_skip C e st 1 (hall 1 (by decide)),
          hookTypeStep_skip C e st 2 (hall 2 (by decide))]
    have hproj := hook_proj C e st
    exact ⟨hproj.1.trans (by rw [hfold]), hproj.2.trans (by rw [hfold])⟩

/-- Concrete instance: a LOG-level event (level 15 matches no tracked
severity) with a duration-marked message bumps the slow counter from 0
to 1 and leaves entries and totals alone. -/
theorem hook_slow_duration_witness :
    (∀ j, j < message_types_count →
      (⟨15, 0, some "duration: 5 ms"⟩ : ErrorData).elevel
        ≠ testConstants.message_types_codes j)
    ∧ ((logerrors_emit_log_hook testConstants ⟨15, 0, some "duration: 5 ms"⟩
        (startupState testConstants 1000 3 0)).glob.slow_count
      = if hasDurationMarker (some "duration: 5 ms")
        then ((startupState testConstants 1000 3 0).glob.slow_count + 1) % uint32Mod
        else (startupState testConstants 1000 3 0).glob.slow_count)
    ∧ (logerrors_emit_log_hook testConstants ⟨15, 0, some "duration: 5 ms"⟩
        (startupState testConstants 1000 3 0)).glob.total_count
      = (startupState testConstants 1000 3 0).glob.total_count :=
  ⟨by decide,
   (hook_slow_duration testConstants (startupState testConstants 1000 3 0)
     ⟨15, 0, some "duration: 5 ms"⟩).1,
   ((hook_slow_duration testConstants (startupState testConstants 1000 3 0)
     ⟨15, 0, some "duration: 5 ms"⟩).2 (by decide)).2⟩

/-! ### Claim C6 (shape of the snapshot output) -/

/-- The snapshot output as the claim describes it: for every severity
type one TOTAL row (NULL window, label TOTAL, count totalCount), emitted
even when zero; then, per registered category in registration order, a
long-window row exactly when that category's rolling sum is positive
(windowSeconds = bucketDurationMs / 1000 times ringLength) and a
short-window row exactly when the most recently completed bucket, ring
slot (currentIndex - 1 + ringLength) mod ringLength, is positive
(windowSeconds = bucketDurationMs / 1000). -/
def snapshotSpec (C : Constants) (st : LEState) : List StatsRow :=
  (List.range message_types_count).flatMap (fun lvl =>
    ⟨none, C.message_type_names lvl, "TOTAL", (st.glob.total_count lvl : Int)⟩ ::
    C.error_codes.flatMap (fun code =>
      (if 0 < (st.entries code).sum_in_buffer lvl then
        [⟨some ((st.glob.interval / 1000 * st.glob.intervals_count : Nat) : Int),
          C.message_type_names lvl, (st.entries code).name,
          (st.entries code).sum_in_buffer lvl⟩] else []) ++
      (if 0 < (((st.entries code).intervals lvl
            ((st.glob.current_interval_index + st.glob.intervals_count - 1)
              % st.glob.intervals_count) : Nat) : Int) then
        [⟨some ((st.glob.interval / 1000 : Nat) : Int), C.message_type_names lvl,
          (st.entries code).name,
          (((st.entries code).intervals lvl
            ((st.glob.current_interval_index + st.glob.intervals_count - 1)
              % st.glob.intervals_count) : Nat) : Int)⟩] else [])))

/-- Inside the ring (index below N, N at most 360, as the configuration
bounds guarantee) the unsigned 32-bit computation of the previous
interval index agrees with the plain (idx + N - 1) mod N. -/
theorem prevIntervalIndex_eq (idx N : Nat) (hidx : idx < N) (hN360 : N ≤ 360) :
    prevIntervalIndex idx N = (idx + N - 1) % N := by
  unfold prevIntervalIndex uint32Mod
  have h1 : idx + (4294967296 - 1) + N = (idx + N - 1) + 1 * 4294967296 := by omega
  rw [h1, Nat.add_mul_mod_self_right]
  have h2 : idx + N - 1 < 4294967296 := by omega
  rw [Nat.mod_eq_of_lt h2]

/-- Folding list append equals prepending the accumulator to the flat
map. -/
theorem foldl_append_flatMap {α β : Type} (g : α → List β) :
    ∀ (l : List α) (acc : List β),
      l.foldl (fun a x => a ++ g x) acc = acc ++ l.flatMap g
  | [], acc => by simp
  | x :: l, acc => by
      show l.foldl _ (acc ++ g x) = acc ++ (x :: l).flatMap g
      rw [foldl_append_flatMap g l (acc ++ g x), List.flatMap_cons, List.append_assoc]

/-- Two folds with pointwise equal step functions agree. -/
theorem foldl_ext {α β : Type} (f g : β → α → β) (h : ∀ b a, f b a = g b a) :
    ∀ (l : List α) (b : β), l.foldl f b = l.foldl g b
  | [], _ => rfl
  | x :: l, b => by
      show l.foldl f (f b x) = l.foldl g (g b x)
      rw [h b x, foldl_ext f g h l (g b x)]

/-- Flat maps of functions that agree on the list elements agree. -/
theorem flatMap_congr_mem {α β : Type} :
    ∀ (l : List α) (g h : α → List β), (∀ x ∈ l, g x = h x) →
      l.flatMap g = l.flatMap h
  | [], _, _, _ => rfl
  | x :: l, g, h, hgh => by
      rw [List.flatMap_cons, List.flatMap_cons]
      rw [hgh x (List.mem_cons_self x l)]
      rw [flatMap_congr_mem l g h (fun y hy => hgh y (List.mem_cons_of_mem x hy))]

/-- C6: whenever the current interval index lies inside the ring and the
ring length respects its configured upper bound of 360, the tuplestore
built by pg_log_errors_stats is exactly the list described by the claim:
per severity type one unconditional TOTAL row, then per category a
long-window row exactly when the rolling sum is positive and a
short-window row exactly when the most recently completed bucket is
positive. -/
theorem snapshot_characterization (C : Constants) (st : LEState)
    (hidx : st.glob.current_interval_index < st.glob.intervals_count)
    (hN360 : st.glob.intervals_count ≤ 360) :
    pg_log_errors_stats_core C st = snapshotSpec C st := by
  unfold pg_log_errors_stats_core snapshotSpec
  have hbody : ∀ (acc : List StatsRow) (lvl : Nat),
      C.error_codes.foldl (fun acc2 code => acc2 ++ categoryRows C st lvl code)
        (acc ++ [totalRow C st lvl])
      = acc ++ (totalRow C st lvl :: C.error_codes.flatMap (categoryRows C st lvl)) := by
    intro acc lvl
    rw [foldl_append_flatMap (categoryRows C st lvl) C.error_codes (acc ++ [totalRow C st lvl])]
    rw [List.append_assoc]
    rfl
  rw [foldl_ext _ (fun acc lvl =>
      acc ++ (totalRow C st lvl :: C.error_codes.flatMap (categoryRows C st lvl)))
      hbody (List.range message_types_count) []]
  rw [foldl_append_flatMap _ (List.range message_types_count) []]
  rw [List.nil_append]
  refine flatMap_congr_mem _ _ _ (fun lvl _ => ?_)
  show totalRow C st lvl :: C.error_codes.flatMap (categoryRows C st lvl) = _
  refine congrArg _ ?_
  refine flatMap_congr_mem _ _ _ (fun code hc => ?_)
  show categoryRows C st lvl code = _
  unfold categoryRows
  rw [if_pos hc]
  rw [prevIntervalIndex_eq _ _ hidx hN360]

/-- Concrete instance of the snapshot characterisation at the scenario A
state. -/
theorem snapshot_characterization_witness :
    scenarioA.glob.current_interval_index < scenarioA.glob.intervals_count
    ∧ scenarioA.glob.intervals_count ≤ 360
    ∧ pg_log_errors_stats_core testConstants scenarioA = snapshotSpec testConstants scenarioA :=
  ⟨by decide, by decide, snapshot_characterization testConstants scenarioA (by decide) (by decide)⟩
